import Mathlib

/-!
Verification development for the stock-analyzer pipeline
(`src/stock_analyzer.py`).  The Python source works on pandas series of
floats; here every series is embedded as a `List ℚ` (exact arithmetic) and
a missing value (pandas `NaN`) is an `Option` `none`.  Pandas comparison
semantics (`NaN` compares `False` against anything) are embedded in the
`pd*` helpers below; float division semantics at a zero denominator
(`x / 0 = inf` for `x > 0`, `0 / 0 = NaN`) are embedded where the code can
reach them, in `rsiAt` and in `efficiency`.
-/

/-- Pandas-style strict greater-than on possibly-missing values: any
comparison involving a missing value (`NaN`) is `false`. -/
def pdGT (a b : Option ℚ) : Bool :=
  match a, b with
  | some x, some y => decide (y < x)
  | _, _ => false

/-- Pandas-style strict less-than on possibly-missing values. -/
def pdLT (a b : Option ℚ) : Bool :=
  match a, b with
  | some x, some y => decide (x < y)
  | _, _ => false

/-- Pandas-style non-strict less-or-equal on possibly-missing values. -/
def pdLE (a b : Option ℚ) : Bool :=
  match a, b with
  | some x, some y => decide (x ≤ y)
  | _, _ => false

/-- Pandas-style non-strict greater-or-equal on possibly-missing values. -/
def pdGE (a b : Option ℚ) : Bool :=
  match a, b with
  | some x, some y => decide (y ≤ x)
  | _, _ => false

/-- Rolling mean `Series.rolling(window=w).mean()` evaluated at index `i` for a series
with no missing entries: defined once the window is full (`i + 1 ≥ w`) and
`i` is inside the series, and then equal to the mean of the `w` trailing
entries ending at `i`. -/
def rollingMeanAt (w : ℕ) (xs : List ℚ) (i : ℕ) : Option ℚ :=
  if w ≤ i + 1 ∧ i < xs.length then
    some (((xs.take (i + 1)).drop (i + 1 - w)).sum / (w : ℚ))
  else none

/-- Moving average `Close.rolling(window=w).mean()` as a series aligned with the input
(lines 305-307 of `stock_analyzer.py`). -/
def movingAvg (w : ℕ) (closes : List ℚ) : List (Option ℚ) :=
  (List.range closes.length).map (fun i => rollingMeanAt w closes i)

/-- Shift `Series.shift(1)` read at index `i`: the previous entry, missing at
index 0. -/
def shiftOne (xs : List (Option ℚ)) (i : ℕ) : Option ℚ :=
  if i = 0 then none else xs.getD (i - 1) none

/-- Line 310: `(MA_short > MA_medium) & (MA_short.shift(1) <= MA_medium.shift(1))`
with short window `ws` and medium window `wm`. -/
def golden_cross (ws wm : ℕ) (closes : List ℚ) (i : ℕ) : Bool :=
  pdGT ((movingAvg ws closes).getD i none) ((movingAvg wm closes).getD i none) &&
  pdLE (shiftOne (movingAvg ws closes) i) (shiftOne (movingAvg wm closes) i)

/-- Line 311: `(MA_short < MA_medium) & (MA_short.shift(1) >= MA_medium.shift(1))`. -/
def dead_cross (ws wm : ℕ) (closes : List ℚ) (i : ℕ) : Bool :=
  pdLT ((movingAvg ws closes).getD i none) ((movingAvg wm closes).getD i none) &&
  pdGE (shiftOne (movingAvg ws closes) i) (shiftOne (movingAvg wm closes) i)

/-- Line 297: the short moving-average window used for the Nikkei series. -/
def nikkei_ma_short : ℕ := 5

/-- Line 298: the medium moving-average window used for the Nikkei series. -/
def nikkei_ma_medium : ℕ := 20

/-- Line 318: the trend column the code actually computes,
`MA_short > MA_medium` (it never compares close to the previous close). -/
def uptrend (closes : List ℚ) (i : ℕ) : Bool :=
  pdGT ((movingAvg nikkei_ma_short closes).getD i none)
        ((movingAvg nikkei_ma_medium closes).getD i none)

/-- Line 319: `MA_short < MA_medium`. -/
def downtrend (closes : List ℚ) (i : ℕ) : Bool :=
  pdLT ((movingAvg nikkei_ma_short closes).getD i none)
        ((movingAvg nikkei_ma_medium closes).getD i none)

/-- Modelled from the spec: the regime classification of section 4.2 —
"a day is rising if benchmark close > previous day's close" (first day is
neither).  The source references the regime aggregates `buy_on_up`,
`buy_on_down`, `sell_on_up`, `sell_on_down` (lines 529-626) but never
computes them, so the rising-day rule exists only in the spec. -/
def risingDaySpec (closes : List ℚ) (i : ℕ) : Bool :=
  if 1 ≤ i ∧ i < closes.length then
    decide (closes.getD (i - 1) 0 < closes.getD i 0)
  else false

/-- Modelled from the spec: "falling if <" (first day is neither). -/
def fallingDaySpec (closes : List ℚ) (i : ℕ) : Bool :=
  if 1 ≤ i ∧ i < closes.length then
    decide (closes.getD i 0 < closes.getD (i - 1) 0)
  else false

/-- Differences `data.diff()` (line 644): missing at index 0,
`close[i] - close[i-1]` afterwards. -/
def deltas (closes : List ℚ) : List (Option ℚ) :=
  match closes with
  | [] => []
  | _ :: rest => none :: List.zipWith (fun a b => some (b - a)) closes rest

/-- Gain series `delta.where(delta > 0, 0)` (line 645): keeps positive deltas,
everything else — including the leading `NaN`, whose comparison is
`False` — becomes `0`. -/
def gains (closes : List ℚ) : List ℚ :=
  (deltas closes).map (fun d =>
    match d with
    | some x => if 0 < x then x else 0
    | none => 0)

/-- Loss series `-delta.where(delta < 0, 0)` (line 646): negated negative deltas,
everything else — including the leading `NaN` — becomes `0`. -/
def losses (closes : List ℚ) : List ℚ :=
  (deltas closes).map (fun d =>
    match d with
    | some x => if x < 0 then -x else 0
    | none => 0)

/-- RSI per `calculate_rsi` (lines 643-650) at index `i`: rolling means of gains and
losses over window `w`, then `rs = gain / loss` and
`rsi = 100 - 100 / (1 + rs)`.  Pandas float semantics at `loss = 0`:
`gain / 0` is infinite when `gain ≠ 0`, giving `rsi = 100`, and `0 / 0` is
`NaN`, giving a missing value. -/
def rsiAt (closes : List ℚ) (w : ℕ) (i : ℕ) : Option ℚ :=
  match rollingMeanAt w (gains closes) i, rollingMeanAt w (losses closes) i with
  | some g, some l =>
      if l = 0 then (if g = 0 then none else some 100)
      else some (100 - 100 / (1 + g / l))
  | _, _ => none

/-- Lines 685-689: the strong buy column is the pairwise OR of the three
per-day family booleans (MA crossover, RSI, MACD). -/
def strong_buy (ma rsi macd : Bool) : Bool :=
  (ma && rsi) || (ma && macd) || (rsi && macd)

/-- Lines 691-695: the strong sell column, same pairwise-OR shape. -/
def strong_sell (ma rsi macd : Bool) : Bool :=
  (ma && rsi) || (ma && macd) || (rsi && macd)

/-- The "at least 2 of 3" predicate on three per-day booleans. -/
def atLeastTwoOfThree (a b c : Bool) : Bool :=
  decide (2 ≤ a.toNat + b.toNat + c.toNat)

/-- Lines 410-417 (and 905-911): every signal date expanded by
`range(-signal_window, signal_window + 1)` day offsets; dates are embedded
as integers (day numbers), so `date + Timedelta(days=k)` is `date + k`. -/
def validBuyDates (buy_signal_dates : List ℤ) (signal_window : ℕ) : List ℤ :=
  buy_signal_dates.flatMap
    (fun d => (List.range (2 * signal_window + 1)).map
      (fun (i : ℕ) => d + (i : ℤ) - (signal_window : ℤ)))

/-- Lines 429 / 432 (and 919 / 922): the notional summed over the rows of
the joined daily series whose date is a member (`isin`) of the valid-date
list; a row is a `(date, amount)` pair of the merged frame. -/
def matchedAmount (rows : List (ℤ × ℚ)) (valid : List ℤ) : ℚ :=
  ((rows.filter (fun r => decide (r.1 ∈ valid))).map (fun r => r.2)).sum

/-- Lines 430 / 433 (and 920 / 923): the notional summed over the rows whose
date is not in the valid-date list (`~isin`). -/
def mismatchedAmount (rows : List (ℤ × ℚ)) (valid : List ℤ) : ℚ :=
  ((rows.filter (fun r => !(decide (r.1 ∈ valid)))).map (fun r => r.2)).sum

/-- The total notional of a direction over the joined series. -/
def totalAmount (rows : List (ℤ × ℚ)) : ℚ :=
  (rows.map (fun r => r.2)).sum

/-- Lines 442-445 (and 932-935): `matched / total * 100` when the total is
positive, else `0`. -/
def buy_match_rate (matched_buys mismatched_buys : ℚ) : ℚ :=
  let total_buys := matched_buys + mismatched_buys
  if 0 < total_buys then matched_buys / total_buys * 100 else 0

/-- Line 446 (and 936): the sell-side rate, same shape. -/
def sell_match_rate (matched_sells mismatched_sells : ℚ) : ℚ :=
  let total_sells := matched_sells + mismatched_sells
  if 0 < total_sells then matched_sells / total_sells * 100 else 0

/-- Line 447 (and 937): the overall rate over both directions. -/
def overall_match_rate (matched_buys mismatched_buys matched_sells mismatched_sells : ℚ) : ℚ :=
  let total_buys := matched_buys + mismatched_buys
  let total_sells := matched_sells + mismatched_sells
  if 0 < total_buys + total_sells then
    (matched_buys + matched_sells) / (total_buys + total_sells) * 100
  else 0

/-- Outcome of the timing-efficiency computation (lines 619-634), keeping
the float semantics of line 628 distinct: `absent` when the guard at line
622 fails (the metric is simply not produced); `nan` when the division
`actual_ratio / (optimal_ratio + actual_ratio)` is `0.0 / 0.0` — NaN for
numpy-float aggregates, a `ZeroDivisionError` for plain floats, in either
case not the formula's value; `negInf` / `posInf` when the denominator is
zero but the numerator is not (`1 - (±inf)`, reachable only with negative
aggregates); `val q` the ordinary finite value. -/
inductive EfficiencyResult where
  | absent : EfficiencyResult
  | nan : EfficiencyResult
  | negInf : EfficiencyResult
  | posInf : EfficiencyResult
  | val : ℚ → EfficiencyResult
  deriving Repr, DecidableEq

/-- Lines 619-634: the timing-efficiency metric over the four
regime-classified aggregates; produced only when both totals are positive,
otherwise absent, and with the zero-denominator paths of line 628 kept
explicit rather than collapsed by total rational division. -/
def efficiency (buy_on_up buy_on_down sell_on_up sell_on_down : ℚ) : EfficiencyResult :=
  let total_buy := buy_on_up + buy_on_down
  let total_sell := sell_on_up + sell_on_down
  if 0 < total_buy ∧ 0 < total_sell then
    let optimalPart := (buy_on_down / total_buy) * (sell_on_up / total_sell)
    let actualPart := (buy_on_up / total_buy) * (sell_on_down / total_sell)
    if optimalPart + actualPart = 0 then
      if actualPart = 0 then EfficiencyResult.nan
      else if 0 < actualPart then EfficiencyResult.negInf
      else EfficiencyResult.posInf
    else EfficiencyResult.val (1 - actualPart / (optimalPart + actualPart))
  else EfficiencyResult.absent

/-- The empty string, used as the out-of-range cell default. -/
def emptyStr : String := ""

/-- Split of a character list at every occurrence of the character with the
given code point: the list of the separated groups (a separator at the
edge or two adjacent separators produce an empty group). -/
def splitByCode (code : ℕ) : List Char → List (List Char)
  | [] => [[]]
  | c :: rest =>
      if c.toNat = code then [] :: splitByCode code rest
      else
        match splitByCode code rest with
        | [] => [[c]]
        | h :: t => (c :: h) :: t

/-- Numeric value of a run of decimal digit characters. -/
def digitsVal (l : List Char) : ℕ :=
  l.foldl (fun a c => 10 * a + (c.toNat - 48)) 0

/-- Parse of a nonempty all-digit character group; anything else is
rejected. -/
def parseNatDigits (l : List Char) : Option ℕ :=
  if l.length ≠ 0 ∧ l.all Char.isDigit then some (digitsVal l) else none

/-- Unsigned decimal parse, modelling `pd.to_numeric(..., errors=coerce)` on
a comma-free cell: an integer part, optionally a decimal point (code
point 46) and a fractional part; any other residue is null. -/
def parseUnsigned (l : List Char) : Option ℚ :=
  match splitByCode 46 l with
  | [ip] => (parseNatDigits ip).map (fun n => (n : ℚ))
  | [ip, fp] =>
      if ip.length = 0 ∧ fp.length = 0 then none
      else if ip.all Char.isDigit ∧ fp.all Char.isDigit then
        some ((digitsVal ip : ℚ) + (digitsVal fp : ℚ) / (10 : ℚ) ^ fp.length)
      else none
  | _ => none

/-- Signed decimal parse: an optional leading minus (code point 45) or plus
(43) in front of an unsigned decimal. -/
def parseDecimal (s : String) : Option ℚ :=
  match s.data with
  | [] => none
  | c :: rest =>
      if c.toNat = 45 then (parseUnsigned rest).map (fun q => -q)
      else if c.toNat = 43 then parseUnsigned rest
      else parseUnsigned (c :: rest)

/-- Comma stripping `str.replace(a comma, the empty string)` of line 109:
every comma (code point 44) is removed. -/
def stripCommas (s : String) : String :=
  String.mk (s.data.filter (fun c => c.toNat ≠ 44))

/-- Date parse modelling `pd.to_datetime(col, format=the pattern of line
103, errors=coerce)`: three groups separated by slashes (code point 47),
all digits, a 4-digit year and a month and day in range; anything else is
null, never an error. -/
def parseDate (s : String) : Option (ℕ × ℕ × ℕ) :=
  match splitByCode 47 s.data with
  | [y, m, d] =>
      match parseNatDigits y, parseNatDigits m, parseNatDigits d with
      | some yn, some mn, some dn =>
          if y.length = 4 ∧ 1 ≤ mn ∧ mn ≤ 12 ∧ 1 ≤ dn ∧ dn ≤ 31 then
            some (yn, mn, dn)
          else none
      | _, _, _ => none
  | _ => none

/-- One normalized record: the 14 named fields assigned at lines 112-113,
with the types the conversions at lines 103-109 actually produce.  The code
numerically coerces the columns at indices 7, 8, 9, 10 and 12
(`numeric_cols`, line 106), which by the schema of line 112 are the
tax-category (kazei_kubun), quantity (suryo), unit-price (tanka), fee
(tesuryo) and settlement-date (ukewatashibi) columns; the tax column
(zeigaku, index 11) and the settlement-amount column (ukewatashi_kingaku,
index 13) are left as raw strings. -/
structure TradeRecord where
  hizuke : Option (ℕ × ℕ × ℕ)
  meigara : String
  code : String
  shijo : String
  torihiki : String
  kikan : String
  koza : String
  kazei_kubun : Option ℚ
  suryo : Option ℚ
  tanka : Option ℚ
  tesuryo : Option ℚ
  zeigaku : String
  ukewatashibi : Option ℚ
  ukewatashi_kingaku : String
  deriving Repr, DecidableEq

/-- Conversion of one 14-cell row exactly as `load_data` (lines 90-115)
does: column 0 through the date parser, columns 7, 8, 9, 10, 12 through
comma stripping and numeric coercion, every other column kept raw. -/
def recordOfRow (r : List String) : TradeRecord :=
  { hizuke := parseDate (r.getD 0 emptyStr)
  , meigara := r.getD 1 emptyStr
  , code := r.getD 2 emptyStr
  , shijo := r.getD 3 emptyStr
  , torihiki := r.getD 4 emptyStr
  , kikan := r.getD 5 emptyStr
  , koza := r.getD 6 emptyStr
  , kazei_kubun := parseDecimal (stripCommas (r.getD 7 emptyStr))
  , suryo := parseDecimal (stripCommas (r.getD 8 emptyStr))
  , tanka := parseDecimal (stripCommas (r.getD 9 emptyStr))
  , tesuryo := parseDecimal (stripCommas (r.getD 10 emptyStr))
  , zeigaku := r.getD 11 emptyStr
  , ukewatashibi := parseDecimal (stripCommas (r.getD 12 emptyStr))
  , ukewatashi_kingaku := r.getD 13 emptyStr }

/-- Normalizer `load_data` (lines 90-119): the 14-name column assignment of
line 112 raises unless the table has exactly 14 columns, and the
surrounding handler then returns `None`; otherwise every row is converted
cell by cell with unparseable cells becoming null. -/
def load_data (rows : List (List String)) : Option (List TradeRecord) :=
  if rows.all (fun r => r.length = 14) then some (rows.map recordOfRow) else none

/-- A representative 14-column trade row: tax-category at index 7,
quantity 100 at index 8, unit price at 9, fee at 10, tax amount at 11,
settlement date at 12, settlement amount at 13. -/
def sampleRow : List String :=
  ["2024/01/10", "SONY CORP", "6758", "TSE", "BUY", "", "GENERAL",
   "SPECIFIC", "100", "1,500", "55", "1,000", "2024/01/12", "150,000"]

/-! ### Helper lemmas -/

theorem gains_length (closes : List ℚ) : (gains closes).length = closes.length := by
  cases closes with
  | nil => rfl
  | cons c rest =>
      simp [gains, deltas, List.length_zipWith]

theorem losses_length (closes : List ℚ) : (losses closes).length = closes.length := by
  cases closes with
  | nil => rfl
  | cons c rest =>
      simp [losses, deltas, List.length_zipWith]

theorem rollingMeanAt_isSome_iff (w : ℕ) (xs : List ℚ) (i : ℕ) :
    (rollingMeanAt w xs i).isSome = true ↔ (w ≤ i + 1 ∧ i < xs.length) := by
  unfold rollingMeanAt
  split <;> simp_all

theorem rollingMeanAt_of_lt (w : ℕ) (xs : List ℚ) (i : ℕ)
    (h : w ≤ i + 1 ∧ i < xs.length) :
    rollingMeanAt w xs i = some (((xs.take (i + 1)).drop (i + 1 - w)).sum / (w : ℚ)) := by
  unfold rollingMeanAt
  exact if_pos h

theorem pdGT_true_iff (a b : Option ℚ) :
    pdGT a b = true ↔ ∃ x y : ℚ, a = some x ∧ b = some y ∧ y < x := by
  rcases a with _ | x <;> rcases b with _ | y <;> simp [pdGT]

theorem pdLT_true_iff (a b : Option ℚ) :
    pdLT a b = true ↔ ∃ x y : ℚ, a = some x ∧ b = some y ∧ x < y := by
  rcases a with _ | x <;> rcases b with _ | y <;> simp [pdLT]

theorem pdLE_true_iff (a b : Option ℚ) :
    pdLE a b = true ↔ ∃ x y : ℚ, a = some x ∧ b = some y ∧ x ≤ y := by
  rcases a with _ | x <;> rcases b with _ | y <;> simp [pdLE]

theorem pdGE_true_iff (a b : Option ℚ) :
    pdGE a b = true ↔ ∃ x y : ℚ, a = some x ∧ b = some y ∧ y ≤ x := by
  rcases a with _ | x <;> rcases b with _ | y <;> simp [pdGE]

theorem golden_cross_iff (ws wm : ℕ) (closes : List ℚ) (i : ℕ) :
    golden_cross ws wm closes i = true ↔
      ∃ s m ps pm : ℚ,
        (movingAvg ws closes).getD i none = some s ∧
        (movingAvg wm closes).getD i none = some m ∧
        shiftOne (movingAvg ws closes) i = some ps ∧
        shiftOne (movingAvg wm closes) i = some pm ∧
        ps ≤ pm ∧ m < s := by
  show (pdGT _ _ && pdLE _ _) = true ↔ _
  rw [Bool.and_eq_true, pdGT_true_iff, pdLE_true_iff]
  constructor
  · rintro ⟨⟨s, m, hA, hB, hms⟩, ⟨ps, pm, hC, hD, hps⟩⟩
    exact ⟨s, m, ps, pm, hA, hB, hC, hD, hps, hms⟩
  · rintro ⟨s, m, ps, pm, hA, hB, hC, hD, hps, hms⟩
    exact ⟨⟨s, m, hA, hB, hms⟩, ⟨ps, pm, hC, hD, hps⟩⟩

theorem dead_cross_iff (ws wm : ℕ) (closes : List ℚ) (i : ℕ) :
    dead_cross ws wm closes i = true ↔
      ∃ s m ps pm : ℚ,
        (movingAvg ws closes).getD i none = some s ∧
        (movingAvg wm closes).getD i none = some m ∧
        shiftOne (movingAvg ws closes) i = some ps ∧
        shiftOne (movingAvg wm closes) i = some pm ∧
        pm ≤ ps ∧ s < m := by
  show (pdLT _ _ && pdGE _ _) = true ↔ _
  rw [Bool.and_eq_true, pdLT_true_iff, pdGE_true_iff]
  constructor
  · rintro ⟨⟨s, m, hA, hB, hms⟩, ⟨psx, pmx, hC, hD, hps⟩⟩
    exact ⟨s, m, psx, pmx, hA, hB, hC, hD, hps, hms⟩
  · rintro ⟨s, m, psx, pmx, hA, hB, hC, hD, hps, hms⟩
    exact ⟨⟨s, m, hA, hB, hms⟩, ⟨psx, pmx, hC, hD, hps⟩⟩

theorem validBuyDates_mem (events : List ℤ) (N : ℕ) (d : ℤ) :
    d ∈ validBuyDates events N ↔ ∃ e ∈ events, e - (N : ℤ) ≤ d ∧ d ≤ e + (N : ℤ) := by
  unfold validBuyDates
  rw [List.mem_flatMap]
  constructor
  · rintro ⟨e, he, hmem⟩
    rw [List.mem_map] at hmem
    obtain ⟨i, hi, hEq⟩ := hmem
    rw [List.mem_range] at hi
    exact ⟨e, he, by omega, by omega⟩
  · rintro ⟨e, he, h1, h2⟩
    refine ⟨e, he, ?_⟩
    rw [List.mem_map]
    refine ⟨(d - e + (N : ℤ)).toNat, ?_, by omega⟩
    rw [List.mem_range]
    omega

/-! ### Claim theorems -/

/-- Claim C1 (counterexample to the claim as stated): the aggregates
(1, 0, 1, 0) lie inside the claim's scope — `total_buy = 1 > 0` and
`total_sell = 1 > 0` — yet the metric is not the formula's value there:
`optimal_ratio = (0/1)*(1/1) = 0` and `actual_ratio = (1/1)*(0/1) = 0`, so
line 628 computes `0.0 / 0.0`, NaN for numpy-float aggregates (and a
`ZeroDivisionError` for plain floats), not a produced value equal to
`1 - actual_ratio / (optimal_ratio + actual_ratio)`. -/
theorem claim_C1_counterexample :
    (0 : ℚ) < 1 + 0 ∧ (0 : ℚ) < 1 + 0 ∧
    efficiency 1 0 1 0 = EfficiencyResult.nan := by
  refine ⟨by norm_num, by norm_num, ?_⟩
  simp only [efficiency]
  norm_num

/-- Claim C1 (amended): for every nonnegative regime-classified notional
aggregate with `total_buy > 0` and `total_sell > 0`, if
`optimal_ratio + actual_ratio` is nonzero the timing-efficiency metric is
produced and equals `1 - actual_ratio / (optimal_ratio + actual_ratio)`;
if `optimal_ratio + actual_ratio = 0` (which for nonnegative aggregates
forces `actual_ratio = 0`) the division at line 628 is `0/0` and the
metric is NaN, not the formula's value; when `total_buy = 0` or
`total_sell = 0` the metric is absent, not zero and not an error. -/
theorem claim_C1_efficiency_formula (bu bd su sd : ℚ)
    (hbu : 0 ≤ bu) (hbd : 0 ≤ bd) (hsu : 0 ≤ su) (hsd : 0 ≤ sd) :
    (0 < bu + bd → 0 < su + sd →
      (bd / (bu + bd) * (su / (su + sd)) + bu / (bu + bd) * (sd / (su + sd)) ≠ 0 →
        efficiency bu bd su sd =
          EfficiencyResult.val
            (1 - (bu / (bu + bd) * (sd / (su + sd))) /
              (bd / (bu + bd) * (su / (su + sd)) +
                bu / (bu + bd) * (sd / (su + sd))))) ∧
      (bd / (bu + bd) * (su / (su + sd)) + bu / (bu + bd) * (sd / (su + sd)) = 0 →
        efficiency bu bd su sd = EfficiencyResult.nan)) ∧
    ((bu + bd = 0 ∨ su + sd = 0) →
      efficiency bu bd su sd = EfficiencyResult.absent) := by
  constructor
  · intro h1 h2
    constructor
    · intro hne
      simp only [efficiency]
      rw [if_pos ⟨h1, h2⟩, if_neg hne]
    · intro heq
      have hopt : 0 ≤ bd / (bu + bd) * (su / (su + sd)) :=
        mul_nonneg (div_nonneg hbd h1.le) (div_nonneg hsu h2.le)
      have hact : 0 ≤ bu / (bu + bd) * (sd / (su + sd)) :=
        mul_nonneg (div_nonneg hbu h1.le) (div_nonneg hsd h2.le)
      have hact0 : bu / (bu + bd) * (sd / (su + sd)) = 0 := by linarith
      simp only [efficiency]
      rw [if_pos ⟨h1, h2⟩, if_pos heq, if_pos hact0]
  · rintro (h | h) <;> simp [efficiency, h]

/-- Witness for claim C1 at the concrete aggregates (1, 1, 1, 1) (ordinary
value 1/2), (1, 0, 1, 0) (the NaN path) and (0, 0, 1, 1) (absent). -/
theorem claim_C1_efficiency_formula_witness :
    efficiency 1 1 1 1 = EfficiencyResult.val (1 / 2) ∧
    efficiency 1 0 1 0 = EfficiencyResult.nan ∧
    efficiency 0 0 1 1 = EfficiencyResult.absent := by
  refine ⟨?_, ?_, ?_⟩
  · have h := ((claim_C1_efficiency_formula 1 1 1 1 (by norm_num) (by norm_num)
      (by norm_num) (by norm_num)).1 (by norm_num) (by norm_num)).1 (by norm_num)
    rw [h]
    norm_num
  · exact ((claim_C1_efficiency_formula 1 0 1 0 (by norm_num) (by norm_num)
      (by norm_num) (by norm_num)).1 (by norm_num) (by norm_num)).2 (by norm_num)
  · exact (claim_C1_efficiency_formula 0 0 1 1 (by norm_num) (by norm_num)
      (by norm_num) (by norm_num)).2 (Or.inl (by norm_num))

/-- Claim C3: for each day and direction, the strong composite column
(pairwise OR of the three family pairings, lines 685-695) fires exactly
when at least two of the three family booleans fire. -/
theorem claim_C3_strong_two_of_three :
    ∀ ma rsi macd : Bool,
      strong_buy ma rsi macd = atLeastTwoOfThree ma rsi macd ∧
      strong_sell ma rsi macd = atLeastTwoOfThree ma rsi macd := by
  decide

/-- Claim C5: each match rate equals `matched / (matched + mismatched) * 100`
when the denominator is positive and equals 0 (not NaN, no division
error) when the denominator is zero, for the buy, sell and overall rates
(lines 445-447 and 935-937). -/
theorem claim_C5_match_rate_guard (mb mmb ms mms : ℚ) :
    (0 < mb + mmb → buy_match_rate mb mmb = mb / (mb + mmb) * 100) ∧
    (mb + mmb = 0 → buy_match_rate mb mmb = 0) ∧
    (0 < ms + mms → sell_match_rate ms mms = ms / (ms + mms) * 100) ∧
    (ms + mms = 0 → sell_match_rate ms mms = 0) ∧
    (0 < (mb + mmb) + (ms + mms) →
      overall_match_rate mb mmb ms mms = (mb + ms) / ((mb + mmb) + (ms + mms)) * 100) ∧
    ((mb + mmb) + (ms + mms) = 0 → overall_match_rate mb mmb ms mms = 0) := by
  refine ⟨?_, ?_, ?_, ?_, ?_, ?_⟩ <;> intro h <;>
    simp [buy_match_rate, sell_match_rate, overall_match_rate, h]

/-- Witness for claim C5 at concrete amounts: a 3:1 split gives 75 percent,
an empty direction gives 0, and a 4:4 overall split gives 50 percent. -/
theorem claim_C5_match_rate_guard_witness :
    buy_match_rate 3 1 = 75 ∧ sell_match_rate 0 0 = 0 ∧
    overall_match_rate 3 1 1 3 = 50 := by
  refine ⟨?_, ?_, ?_⟩
  · have h := (claim_C5_match_rate_guard 3 1 0 0).1 (by norm_num)
    rw [h]
    norm_num
  · exact (claim_C5_match_rate_guard 0 0 0 0).2.2.2.1 (by norm_num)
  · have h := (claim_C5_match_rate_guard 3 1 1 3).2.2.2.2.1 (by norm_num)
    rw [h]
    norm_num

/-- Claim C10: for every joined daily series and every valid-date list, the
matched and mismatched sums are taken over a filter and its complement
(lines 429-433 and 919-923), so they always add up to the direction's
total notional. -/
theorem claim_C10_matched_mismatched_partition (rows : List (ℤ × ℚ)) (valid : List ℤ) :
    matchedAmount rows valid + mismatchedAmount rows valid = totalAmount rows := by
  unfold matchedAmount mismatchedAmount totalAmount
  induction rows with
  | nil => simp
  | cons r rest ih =>
      by_cases h : r.1 ∈ valid <;>
        simp [List.filter_cons, h] <;> linarith [ih]

/-- Claim C6: a day of the joined series is matched exactly when its date
lies in the union of the closed windows `[event - N, event + N]`; the
matched sum ranges over the rows of the joined series filtered by that
membership, so each day's notional is counted once however many windows
cover it; in particular with events at day 0 and day 3 and `N = 7` a day
inside both windows contributes its notional exactly once. -/
theorem claim_C6_window_union_once :
    (∀ (events : List ℤ) (N : ℕ) (d : ℤ),
        d ∈ validBuyDates events N ↔
          ∃ e ∈ events, e - (N : ℤ) ≤ d ∧ d ≤ e + (N : ℤ)) ∧
    (∀ (events : List ℤ) (N : ℕ) (rows : List (ℤ × ℚ)),
        matchedAmount rows (validBuyDates events N) =
          ((rows.filter (fun r =>
              decide (∃ e ∈ events, e - (N : ℤ) ≤ r.1 ∧ r.1 ≤ e + (N : ℤ)))).map
            (fun r => r.2)).sum) ∧
    matchedAmount [((2 : ℤ), (100 : ℚ))] (validBuyDates [0, 3] 7) = 100 := by
  refine ⟨fun events N d => validBuyDates_mem events N d, ?_, ?_⟩
  · intro events N rows
    unfold matchedAmount
    congr 1
    apply congrArg
    apply List.filter_congr
    intro r _
    exact decide_eq_decide.mpr (validBuyDates_mem events N r.1)
  · have hm : ((2 : ℤ) ∈ validBuyDates [0, 3] 7) := by decide
    simp [matchedAmount, hm]

/-- Witness for claim C6: day 2 lies in the windows of both the day-0 and
day-3 events with tolerance 7, extracted through the membership
characterisation. -/
theorem claim_C6_window_union_once_witness :
    ∃ e ∈ ([0, 3] : List ℤ), e - (7 : ℤ) ≤ 2 ∧ (2 : ℤ) ≤ e + 7 :=
  (claim_C6_window_union_once.1 [0, 3] 7 2).mp (by decide)

/-- Claim C2 (code evaluation at the failing input): with benchmark closes
[1, 2] the second day rises in the sense of the spec (close 2 above the
previous close 1), yet the only trend column the code computes (line 318,
`MA_short > MA_medium`) is false there; symmetrically for [2, 1] and the
falling side (line 319).  The four regime sums the claim describes
(`buy_on_up`, `buy_on_down`, `sell_on_up`, `sell_on_down`) are referenced
at lines 529-626 but are never assigned anywhere in the program, so the
claimed summation does not exist and the section raises a `NameError` at
line 529 on every run that reaches it. -/
theorem claim_C2_regime_code_divergence :
    risingDaySpec [1, 2] 1 = true ∧ uptrend [1, 2] 1 = false ∧
    fallingDaySpec [2, 1] 1 = true ∧ downtrend [2, 1] 1 = false := by
  refine ⟨by decide, ?_, by decide, ?_⟩ <;> decide

/-- Claim C9 (code evaluation at the failing input): on a well-formed
14-column row the Normalizer does parse the date column and never throws,
but the designated numeric columns are wrong: `numeric_cols` (line 106)
names indices 7, 8, 9, 10 and 12, so the tax-category cell (index 7,
"SPECIFIC") is numerically coerced to null, the settlement-date cell
(index 12, "2024/01/12") is numerically coerced to null, and the tax cell
(index 11, "1,000") and settlement-amount cell (index 13, "150,000") are
left as raw strings instead of the claimed numbers 1000 and 150000. -/
theorem claim_C9_numeric_columns_bug :
    load_data [sampleRow] = some [recordOfRow sampleRow] ∧
    (recordOfRow sampleRow).hizuke = some (2024, 1, 10) ∧
    (recordOfRow sampleRow).suryo = some 100 ∧
    (recordOfRow sampleRow).tanka = some 1500 ∧
    (recordOfRow sampleRow).kazei_kubun = none ∧
    (recordOfRow sampleRow).ukewatashibi = none ∧
    (recordOfRow sampleRow).zeigaku = "1,000" ∧
    (recordOfRow sampleRow).ukewatashi_kingaku = "150,000" := by
  refine ⟨?_, ?_, ?_, ?_, ?_, ?_, ?_, ?_⟩ <;> decide

theorem movingAvg_getD (w : ℕ) (closes : List ℚ) (i : ℕ) :
    (movingAvg w closes).getD i none = rollingMeanAt w closes i := by
  unfold movingAvg
  by_cases h : i < closes.length
  · have hlen : i < ((List.range closes.length).map
        (fun i => rollingMeanAt w closes i)).length := by
      simpa using h
    rw [List.getD_eq_getElem _ _ hlen]
    simp
  · have hlen : ((List.range closes.length).map
        (fun i => rollingMeanAt w closes i)).length ≤ i := by
      simpa using not_lt.mp h
    rw [List.getD_eq_default _ _ hlen]
    unfold rollingMeanAt
    exact (if_neg (fun hc => h hc.2)).symm

theorem shiftOne_movingAvg (w : ℕ) (closes : List ℚ) (i : ℕ) :
    shiftOne (movingAvg w closes) i =
      if i = 0 then none else rollingMeanAt w closes (i - 1) := by
  unfold shiftOne
  by_cases h : i = 0
  · rw [if_pos h, if_pos h]
  · rw [if_neg h, if_neg h, movingAvg_getD]

/-- Claim C7: the MA buy signal fires exactly on a strict upward crossing
(prior short MA at or below the prior medium MA, current short MA strictly
above the current medium MA) with all four values defined; the sell signal
symmetrically; an undefined MA on the current or prior day fires nothing,
and a flat crossing with equality on both days fires neither signal. -/
theorem claim_C7_ma_crossover_semantics (ws wm : ℕ) (closes : List ℚ) (i : ℕ) :
    (golden_cross ws wm closes i = true ↔
      ∃ s m ps pm : ℚ,
        (movingAvg ws closes).getD i none = some s ∧
        (movingAvg wm closes).getD i none = some m ∧
        shiftOne (movingAvg ws closes) i = some ps ∧
        shiftOne (movingAvg wm closes) i = some pm ∧
        ps ≤ pm ∧ m < s) ∧
    (dead_cross ws wm closes i = true ↔
      ∃ s m ps pm : ℚ,
        (movingAvg ws closes).getD i none = some s ∧
        (movingAvg wm closes).getD i none = some m ∧
        shiftOne (movingAvg ws closes) i = some ps ∧
        shiftOne (movingAvg wm closes) i = some pm ∧
        pm ≤ ps ∧ s < m) ∧
    ((movingAvg ws closes).getD i none = none ∨
     (movingAvg wm closes).getD i none = none ∨
     shiftOne (movingAvg ws closes) i = none ∨
     shiftOne (movingAvg wm closes) i = none →
      golden_cross ws wm closes i = false ∧ dead_cross ws wm closes i = false) ∧
    (∀ s m ps pm : ℚ,
      (movingAvg ws closes).getD i none = some s →
      (movingAvg wm closes).getD i none = some m →
      shiftOne (movingAvg ws closes) i = some ps →
      shiftOne (movingAvg wm closes) i = some pm →
      s = m → ps = pm →
      golden_cross ws wm closes i = false ∧ dead_cross ws wm closes i = false) := by
  refine ⟨golden_cross_iff ws wm closes i, dead_cross_iff ws wm closes i, ?_, ?_⟩
  · intro h
    constructor
    · cases hgc : golden_cross ws wm closes i
      · rfl
      · exfalso
        obtain ⟨s, m, ps, pm, hA, hB, hC, hD, _, _⟩ :=
          (golden_cross_iff ws wm closes i).mp hgc
        rcases h with h | h | h | h
        · rw [h] at hA; exact Option.noConfusion hA
        · rw [h] at hB; exact Option.noConfusion hB
        · rw [h] at hC; exact Option.noConfusion hC
        · rw [h] at hD; exact Option.noConfusion hD
    · cases hdc : dead_cross ws wm closes i
      · rfl
      · exfalso
        obtain ⟨s, m, ps, pm, hA, hB, hC, hD, _, _⟩ :=
          (dead_cross_iff ws wm closes i).mp hdc
        rcases h with h | h | h | h
        · rw [h] at hA; exact Option.noConfusion hA
        · rw [h] at hB; exact Option.noConfusion hB
        · rw [h] at hC; exact Option.noConfusion hC
        · rw [h] at hD; exact Option.noConfusion hD
  · intro s m ps pm hA hB hC hD hsm hpspm
    constructor
    · cases hgc : golden_cross ws wm closes i
      · rfl
      · exfalso
        obtain ⟨s2, m2, ps2, pm2, hA2, hB2, _, _, _, hlt⟩ :=
          (golden_cross_iff ws wm closes i).mp hgc
        rw [hA] at hA2
        rw [hB] at hB2
        have hs : s = s2 := Option.some.inj hA2
        have hm : m = m2 := Option.some.inj hB2
        rw [← hs, ← hm, hsm] at hlt
        exact lt_irrefl m hlt
    · cases hdc : dead_cross ws wm closes i
      · rfl
      · exfalso
        obtain ⟨s2, m2, ps2, pm2, hA2, hB2, _, _, _, hlt⟩ :=
          (dead_cross_iff ws wm closes i).mp hdc
        rw [hA] at hA2
        rw [hB] at hB2
        have hs : s = s2 := Option.some.inj hA2
        have hm : m = m2 := Option.some.inj hB2
        rw [← hs, ← hm, hsm] at hlt
        exact lt_irrefl m hlt

/-- Witness for claim C7: with short window 1, medium window 2 and closes
[4, 0, 4], day 2 is a strict upward crossing (prior short 0 at or below
prior medium 2, current short 4 above current medium 2), so the buy signal
fires. -/
theorem claim_C7_ma_crossover_semantics_witness :
    golden_cross 1 2 [4, 0, 4] 2 = true := by
  apply (claim_C7_ma_crossover_semantics 1 2 [4, 0, 4] 2).1.mpr
  refine ⟨4, 2, 0, 2, ?_, ?_, ?_, ?_, by norm_num, by norm_num⟩
  · rw [movingAvg_getD]
    norm_num [rollingMeanAt]
  · rw [movingAvg_getD]
    norm_num [rollingMeanAt]
  · rw [shiftOne_movingAvg]
    norm_num [rollingMeanAt]
  · rw [shiftOne_movingAvg]
    norm_num [rollingMeanAt]

/-- Claim C4: whenever the rolling loss average over the RSI window is
exactly 0 at a bar where the RSI is defined, the computed RSI is the
saturated value 100; the computation is a total function (pandas float
division yields an infinite ratio there, not a division-by-zero error). -/
theorem claim_C4_rsi_saturates (closes : List ℚ) (w i : ℕ)
    (hl : rollingMeanAt w (losses closes) i = some 0)
    (hd : (rsiAt closes w i).isSome = true) :
    rsiAt closes w i = some 100 := by
  have hbounds : w ≤ i + 1 ∧ i < (losses closes).length :=
    (rollingMeanAt_isSome_iff w (losses closes) i).mp (by rw [hl]; rfl)
  have hgb : w ≤ i + 1 ∧ i < (gains closes).length := by
    rw [gains_length]
    rw [losses_length] at hbounds
    exact hbounds
  obtain ⟨g, hg⟩ : ∃ g, rollingMeanAt w (gains closes) i = some g :=
    Option.isSome_iff_exists.mp ((rollingMeanAt_isSome_iff w (gains closes) i).mpr hgb)
  by_cases hg0 : g = 0
  · exfalso
    unfold rsiAt at hd
    rw [hg, hl] at hd
    simp [hg0] at hd
  · unfold rsiAt
    rw [hg, hl]
    simp [hg0]

/-- Witness for claim C4: closes [1, 2, 4] with window 2 at bar 2 — the
loss average is 0, the RSI is defined, and it equals 100. -/
theorem claim_C4_rsi_saturates_witness :
    rsiAt [1, 2, 4] 2 2 = some 100 := by
  have hgl : gains [1, 2, 4] = [0, 1, 2] := by norm_num [gains, deltas]
  have hll : losses [1, 2, 4] = [0, 0, 0] := by norm_num [losses, deltas]
  have hg : rollingMeanAt 2 (gains [1, 2, 4]) 2 = some (3 / 2) := by
    rw [hgl]
    norm_num [rollingMeanAt]
  have hl : rollingMeanAt 2 (losses [1, 2, 4]) 2 = some 0 := by
    rw [hll]
    norm_num [rollingMeanAt]
  apply claim_C4_rsi_saturates
  · exact hl
  · unfold rsiAt
    rw [hg, hl]
    norm_num

/-- Claim C8 (amended): the RSI of `calculate_rsi` with window `w` is
undefined for exactly the first `w - 1` bars (the leading diff `NaN` is
replaced by 0 by the `where` clauses, so the rolling means fill one bar
earlier than the claim states); from bar `w - 1` on it is defined exactly
when the window's gain and loss averages are not both zero (both zero —
a flat window — gives the `NaN` ratio `0 / 0`, hence an undefined value). -/
theorem claim_C8_rsi_defined_range (closes : List ℚ) (w i : ℕ) :
    (i + 1 < w ∨ closes.length ≤ i → rsiAt closes w i = none) ∧
    (w ≤ i + 1 → i < closes.length →
      ((rsiAt closes w i).isSome = true ↔
        ¬(rollingMeanAt w (gains closes) i = some 0 ∧
          rollingMeanAt w (losses closes) i = some 0))) := by
  constructor
  · intro h
    have hg : rollingMeanAt w (gains closes) i = none := by
      unfold rollingMeanAt
      refine if_neg ?_
      rw [gains_length]
      omega
    have hl : rollingMeanAt w (losses closes) i = none := by
      unfold rollingMeanAt
      refine if_neg ?_
      rw [losses_length]
      omega
    unfold rsiAt
    rw [hg, hl]
  · intro h1 h2
    have hG : rollingMeanAt w (gains closes) i =
        some ((((gains closes).take (i + 1)).drop (i + 1 - w)).sum / (w : ℚ)) := by
      unfold rollingMeanAt
      exact if_pos ⟨h1, by rw [gains_length]; exact h2⟩
    have hL : rollingMeanAt w (losses closes) i =
        some ((((losses closes).take (i + 1)).drop (i + 1 - w)).sum / (w : ℚ)) := by
      unfold rollingMeanAt
      exact if_pos ⟨h1, by rw [losses_length]; exact h2⟩
    unfold rsiAt
    rw [hG, hL]
    by_cases hl0 : (((losses closes).take (i + 1)).drop (i + 1 - w)).sum / (w : ℚ) = 0
    · by_cases hg0 : (((gains closes).take (i + 1)).drop (i + 1 - w)).sum / (w : ℚ) = 0
      · simp [hl0, hg0]
      · simp [hl0, hg0]
    · simp [hl0]

/-- Witness for claim C8: with window 2 and closes [1, 2, 3], bar 0 is
before bar `w - 1 = 1` and the RSI is undefined there. -/
theorem claim_C8_rsi_defined_range_witness :
    rsiAt [1, 2, 3] 2 0 = none :=
  (claim_C8_rsi_defined_range [1, 2, 3] 2 0).1 (Or.inl (by norm_num))

/-- Claim C8 (counterexample to the claim as stated): with window 2 the
claim asserts the RSI is undefined at bars 0 and 1 and defined from bar 2
on; but for closes [1, 2] the RSI is already defined (100) at bar 1, and
for the flat closes [1, 1, 1] it is undefined at bar 2. -/
theorem claim_C8_counterexample :
    rsiAt [1, 2] 2 1 = some 100 ∧ rsiAt [1, 1, 1] 2 2 = none := by
  constructor
  · have hgl : gains [1, 2] = [0, 1] := by norm_num [gains, deltas]
    have hll : losses [1, 2] = [0, 0] := by norm_num [losses, deltas]
    have hg : rollingMeanAt 2 (gains [1, 2]) 1 = some (1 / 2) := by
      rw [hgl]
      norm_num [rollingMeanAt]
    have hl : rollingMeanAt 2 (losses [1, 2]) 1 = some 0 := by
      rw [hll]
      norm_num [rollingMeanAt]
    unfold rsiAt
    rw [hg, hl]
    norm_num
  · have hgl : gains [1, 1, 1] = [0, 0, 0] := by norm_num [gains, deltas]
    have hll : losses [1, 1, 1] = [0, 0, 0] := by norm_num [losses, deltas]
    have hg : rollingMeanAt 2 (gains [1, 1, 1]) 2 = some 0 := by
      rw [hgl]
      norm_num [rollingMeanAt]
    have hl : rollingMeanAt 2 (losses [1, 1, 1]) 2 = some 0 := by
      rw [hll]
      norm_num [rollingMeanAt]
    unfold rsiAt
    rw [hg, hl]
    norm_num
